import Mathlib

/-!
# Verification of the lsync terminal rendering core

Shallow embedding of `src/ui.py` (relative-cursor primitives `CursorTool`,
the stateful multi-line canvas `UITool`, and the scoped session
`UITool.ui_tool`) and of the stream-multiplexing loop
`SyncTool._ui_thread` from `src/sync.py`.

The Python code performs terminal output by printing ANSI escape
sequences.  The embedding represents each printed control sequence (and
each run of literal characters) as an abstract `TermOp`; a `Term` value
gives the standard ANSI-terminal semantics of such a trace (relative
cursor moves, character cells, cursor visibility), so that claims about
the *rendered* content of a display line can be stated.

Canvas coordinates are identified with terminal rows: a terminal whose
cursor sits at row `r`, column `c` is in sync with a canvas whose
tracked belief is `cur_line = r`, `cur_col = c`.

Python `assert` failures (an `AssertionError` raised before any effect)
are modelled by `Option`: `none` means the call raised, and in that case
no output is emitted and no state is produced.
-/

/-- One abstract terminal operation, corresponding to one escape sequence
or one run of literal characters printed by the Python code. -/
inductive TermOp where
  | moveUp (n : Nat)
  | moveDown (n : Nat)
  | moveRight (n : Nat)
  | moveLeft (n : Nat)
  | printStr (cs : List Char)
  | hideCursor
  | showCursor
  | clearScreen
  deriving DecidableEq, Repr

/-- ANSI-terminal state: cursor position, character cells, visibility.
Cells are indexed by (row, column); `none` is an empty cell. -/
@[ext]
structure Term where
  row : Int
  col : Int
  cells : Int → Int → Option Char
  cursorVisible : Bool

/-- Printing one literal character on the terminal: linefeed moves to the
start of the next row (cooked-mode ONLCR), carriage return moves to the
start of the current row, any other character fills the current cell and
advances the cursor one column. -/
def Term.putc (s : Term) (c : Char) : Term :=
  if c = '\n' then { s with row := s.row + 1, col := 0 }
  else if c = '\r' then { s with col := 0 }
  else
    { s with
      cells := fun r k => if r = s.row ∧ k = s.col then some c else s.cells r k,
      col := s.col + 1 }

/-- Printing a run of literal characters. -/
def Term.puts (s : Term) (cs : List Char) : Term :=
  cs.foldl Term.putc s

/-- Semantics of one abstract terminal operation. -/
def Term.applyOp (s : Term) : TermOp → Term
  | .moveUp n => { s with row := s.row - n }
  | .moveDown n => { s with row := s.row + n }
  | .moveRight n => { s with col := s.col + n }
  | .moveLeft n => { s with col := s.col - n }
  | .printStr cs => s.puts cs
  | .hideCursor => { s with cursorVisible := false }
  | .showCursor => { s with cursorVisible := true }
  | .clearScreen => { s with row := 0, col := 0, cells := fun _ _ => none }

/-- Semantics of a trace of terminal operations. -/
def Term.applyOps (s : Term) (ops : List TermOp) : Term :=
  ops.foldl Term.applyOp s

/-- A fresh terminal: cursor at the canvas origin, all cells empty. -/
def term0 : Term :=
  { row := 0, col := 0, cells := fun _ _ => none, cursorVisible := true }

namespace CursorTool

/-- `CursorTool.move_up` (src/ui.py line 15): prints the cursor-up escape. -/
def move_up (n : Nat) : List TermOp := [.moveUp n]

/-- `CursorTool.move_down` (src/ui.py line 19). -/
def move_down (n : Nat) : List TermOp := [.moveDown n]

/-- `CursorTool.move_right` (src/ui.py line 23). -/
def move_right (n : Nat) : List TermOp := [.moveRight n]

/-- `CursorTool.move_left` (src/ui.py line 27). -/
def move_left (n : Nat) : List TermOp := [.moveLeft n]

/-- `CursorTool.move_vertical` (src/ui.py line 31): down for a positive
delta, up for a negative one, nothing for zero. -/
def move_vertical (n : Int) : List TermOp :=
  if n > 0 then move_down n.toNat
  else if n < 0 then move_up (-n).toNat
  else []

/-- `CursorTool.move_horizontal` (src/ui.py line 38). -/
def move_horizontal (n : Int) : List TermOp :=
  if n > 0 then move_right n.toNat
  else if n < 0 then move_left (-n).toNat
  else []

/-- `CursorTool.hide_cursor` (src/ui.py line 49). -/
def hide_cursor : List TermOp := [.hideCursor]

/-- `CursorTool.show_cursor` (src/ui.py line 53). -/
def show_cursor : List TermOp := [.showCursor]

/-- `CursorTool.clear_screen` (src/ui.py line 57). -/
def clear_screen : List TermOp := [.clearScreen]

end CursorTool

/-- The mutable state of `UITool` (src/ui.py lines 62-68): the fixed line
count, the tracked cursor belief, and the per-line write column table. -/
structure UITool where
  max_lines : Nat
  cur_line : Int
  cur_col : Int
  line_pos : List Int
  deriving DecidableEq, Repr

namespace UITool

/-- `UITool.move_cursor` (src/ui.py line 73): relative move to the given
line and/or column, updating the tracked belief; returns the new state
and the emitted terminal operations. -/
def move_cursor (t : UITool) (line col : Option Int) : UITool × List TermOp :=
  let p1 :=
    match line with
    | some l => ({ t with cur_line := l }, CursorTool.move_vertical (l - t.cur_line))
    | none => (t, [])
  let p2 :=
    match col with
    | some c => ({ p1.1 with cur_col := c }, CursorTool.move_horizontal (c - p1.1.cur_col))
    | none => (p1.1, [])
  (p2.1, p1.2 ++ p2.2)

/-- `UITool.reset_pos` (src/ui.py line 70): move to the footer position
`(max_lines, 0)`. -/
def reset_pos (t : UITool) : UITool × List TermOp :=
  t.move_cursor (some (t.max_lines : Int)) (some 0)

/-- `UITool.__init__` (src/ui.py line 62): belief starts at `(0, 0)`,
then `reset_pos` moves to the footer, then the column table is created
all zero. -/
def init (max_lines : Nat) : UITool × List TermOp :=
  let t0 : UITool := { max_lines := max_lines, cur_line := 0, cur_col := 0, line_pos := [] }
  let p := t0.reset_pos
  ({ p.1 with line_pos := List.replicate max_lines 0 }, p.2)

/-- `UITool.print_char` (src/ui.py line 81): print one character and
advance the tracked column by one. -/
def print_char (t : UITool) (char : Char) : UITool × List TermOp :=
  ({ t with cur_col := t.cur_col + 1 }, [.printStr [char]])

/-- `UITool.print_line` (src/ui.py line 85): print a string and advance
the tracked column by its length.  No precondition is checked. -/
def print_line (t : UITool) (content : List Char) : UITool × List TermOp :=
  ({ t with cur_col := t.cur_col + content.length }, [.printStr content])

/-- `UITool.update_char` (src/ui.py line 89): assert the line index is in
range; a newline or carriage return only resets the line's column;
otherwise move to the line's write position, print the character and
record the new column; in both cases finish with `reset_pos`.
`none` models the `assert` raising. -/
def update_char (t : UITool) (line : Int) (char : Char) : Option (UITool × List TermOp) :=
  if 0 ≤ line ∧ line < (t.max_lines : Int) then
    if char = '\n' ∨ char = '\r' then
      let t1 : UITool := { t with line_pos := t.line_pos.set line.toNat 0 }
      let p2 := t1.reset_pos
      some (p2.1, p2.2)
    else
      let p1 := t.move_cursor (some line) (some (t.line_pos.getD line.toNat 0))
      let p2 := p1.1.print_char char
      let t3 : UITool := { p2.1 with line_pos := p2.1.line_pos.set line.toNat p2.1.cur_col }
      let p4 := t3.reset_pos
      some (p4.1, p1.2 ++ p2.2 ++ p4.2)
  else none

/-- `UITool.update_line` (src/ui.py line 101): assert the content has no
carriage return and no newline; move to the start of the line, print the
content, return to the footer.  The line index is not checked. -/
def update_line (t : UITool) (line : Int) (content : List Char) : Option (UITool × List TermOp) :=
  if '\r' ∈ content ∨ '\n' ∈ content then none
  else
    let p1 := t.move_cursor (some line) (some 0)
    let p2 := p1.1.print_line content
    let p3 := p2.1.reset_pos
    some (p3.1, p1.2 ++ p2.2 ++ p3.2)

/-- `UITool.print_desc` (src/ui.py line 108): frame the description with
five equals signs on each side and write it on the footer line. -/
def print_desc (t : UITool) (desc : List Char) : Option (UITool × List TermOp) :=
  t.update_line (t.max_lines : Int)
    (List.replicate 5 '=' ++ [' '] ++ desc ++ [' '] ++ List.replicate 5 '=')

end UITool

/-- What the caller's body inside the `ui_tool` scope did: the terminal
operations it emitted, and, when it raised, the message of the raised
exception (`str(e)`). -/
structure BodyOut where
  out : List TermOp
  err : Option (List Char)

/-- Output of the scope's `except` clause: `print(e)` prints the message
followed by a newline; nothing when the body completed normally. -/
def errOut (e : Option (List Char)) : List TermOp :=
  match e with
  | some m => [.printStr (m ++ ['\n'])]
  | none => []

/-- `UITool.ui_tool` (src/ui.py line 112), the scoped session: hide the
cursor, build the canvas, print the banner, run the body; any exception
from the banner or the body is caught and printed (`except Exception as
e: print(e)`), and the `finally` clause always shows the cursor and
writes a trailing newline.  Returns the whole emitted trace together
with the exception propagated to the caller of the scope — which is
always `none`, because the scope swallows body exceptions. -/
def ui_tool_run (max_lines : Nat) (desc : List Char) (body : UITool → BodyOut) :
    List TermOp × Option (List Char) :=
  match (UITool.init max_lines).1.print_desc desc with
  | none =>
      ([TermOp.hideCursor] ++ (UITool.init max_lines).2 ++
        [TermOp.printStr ['\n'], TermOp.showCursor, TermOp.printStr ['\n']], none)
  | some p =>
      ([TermOp.hideCursor] ++ (UITool.init max_lines).2 ++ p.2 ++ (body p.1).out ++
        errOut (body p.1).err ++ [TermOp.showCursor, TermOp.printStr ['\n']], none)

/-- The process-handle interface used by `SyncTool._ui_thread`
(src/sync.py line 133): a non-blocking poll (`true` = exited) and a
non-blocking single-byte read (`none` = nothing available). -/
structure ProcModel (σ : Type) where
  poll : σ → Bool
  read : σ → Option (Char × σ)

/-- One pass of the `for i, p in enumerate(rsync_procs)` loop
(src/sync.py lines 136-138): attempt one read per process in index
order, routing each obtained byte to `update_char`.  `none` models an
`AssertionError` escaping from `update_char`. -/
def mux_iter {σ : Type} (pm : ProcModel σ) :
    List σ → Int → UITool → Option (List σ × UITool × List TermOp)
  | [], _, ui => some ([], ui, [])
  | p :: ps, i, ui =>
    match pm.read p with
    | some q =>
      match ui.update_char i q.1 with
      | none => none
      | some r =>
        match mux_iter pm ps (i + 1) r.1 with
        | none => none
        | some w => some (q.2 :: w.1, w.2.1, r.2 ++ w.2.2)
    | none =>
      match mux_iter pm ps (i + 1) ui with
      | none => none
      | some w => some (p :: w.1, w.2.1, w.2.2)

/-- Result of the multiplexing loop.  `fuelOut` marks exhaustion of the
step budget (the Python loop has no budget: it simply has not terminated
within that many iterations); `fault` marks an assertion escaping. -/
inductive MuxRes (σ : Type) where
  | fuelOut
  | fault
  | done (ps : List σ) (ui : UITool) (out : List TermOp)
  deriving DecidableEq, Repr

/-- The `while not all(p.poll() is not None for p in rsync_procs)` loop
of `SyncTool._ui_thread` (src/sync.py lines 135-138), with an explicit
fuel bound standing for the number of iterations observed. -/
def mux_loop {σ : Type} (pm : ProcModel σ) : Nat → List σ → UITool → MuxRes σ
  | 0, _, _ => .fuelOut
  | fuel + 1, ps, ui =>
    if ps.all pm.poll then .done ps ui []
    else
      match mux_iter pm ps 0 ui with
      | none => .fault
      | some w =>
        match mux_loop pm fuel w.1 w.2.1 with
        | .fuelOut => .fuelOut
        | .fault => .fault
        | .done ps2 ui2 o2 => .done ps2 ui2 (w.2.2 ++ o2)

/-- Whether the loop returned. -/
def MuxRes.isDone {σ : Type} : MuxRes σ → Bool
  | .done _ _ _ => true
  | _ => false

/-- Final canvas state when the loop returned. -/
def MuxRes.endUI {σ : Type} : MuxRes σ → Option UITool
  | .done _ ui _ => some ui
  | _ => none

/-- Final process states when the loop returned. -/
def MuxRes.endProcs {σ : Type} : MuxRes σ → Option (List σ)
  | .done ps _ _ => some ps
  | _ => none

/-- Terminal operations emitted while the loop ran. -/
def MuxRes.outTrace {σ : Type} : MuxRes σ → List TermOp
  | .done _ _ o => o
  | _ => []

/-- A process handle that makes the bytes of its buffer available one at
a time and reports exited exactly when the buffer is drained. -/
def bufPM : ProcModel (List Char) :=
  { poll := fun s => s.isEmpty,
    read := fun s =>
      match s with
      | [] => none
      | c :: r => some (c, r) }

/-- A process handle that already reports exited while bytes may still
sit in its buffer. -/
def exitedPM : ProcModel (List Char) :=
  { poll := fun _ => true,
    read := fun s =>
      match s with
      | [] => none
      | c :: r => some (c, r) }

/-- The three process streams of the C2 scenario. -/
def c2_procs : List (List Char) := [['a', 'b'], ['x', 'y'], ['1', '2']]

/-- Session setup of `_ui_thread` for three processes: canvas
construction followed by the default "TinyUI" banner; the canvas state
and the cumulative output trace. -/
def c2_start : UITool × List TermOp :=
  let i3 := UITool.init 3
  match i3.1.print_desc ['T', 'i', 'n', 'y', 'U', 'I'] with
  | some p => (p.1, i3.2 ++ p.2)
  | none => (i3.1, i3.2)

/-- The multiplexing loop of the C2 scenario (ten iterations of fuel are
ample: three suffice). -/
def c2_res : MuxRes (List Char) := mux_loop bufPM 10 c2_procs c2_start.1

/-- Terminal contents after the C2 scenario. -/
def c2_term : Term := term0.applyOps (c2_start.2 ++ c2_res.outTrace)

/-- Iterated `update_char` calls routed to one line. -/
def UITool.run_chars (t : UITool) (i : Int) : List Char → Option (UITool × List TermOp)
  | [] => some (t, [])
  | c :: rest =>
    match t.update_char i c with
    | none => none
    | some p =>
      match p.1.run_chars i rest with
      | none => none
      | some q => some (q.1, p.2 ++ q.2)

/-- Iterated `update_char` calls with arbitrary line routing. -/
def UITool.run_calls (t : UITool) : List (Int × Char) → Option (UITool × List TermOp)
  | [] => some (t, [])
  | pc :: rest =>
    match t.update_char pc.1 pc.2 with
    | none => none
    | some p =>
      match p.1.run_calls rest with
      | none => none
      | some q => some (q.1, p.2 ++ q.2)

/-- A session body that completes normally without output. -/
def okBody : UITool → BodyOut := fun _ => { out := [], err := none }

/-- A session body that raises an exception rendered as "boom". -/
def boomBody : UITool → BodyOut := fun _ => { out := [], err := some ['b', 'o', 'o', 'm'] }

/-- Canvas state after `print_desc` of a one-line session with banner
text "T". -/
def descT_tool : UITool := { max_lines := 1, cur_line := 1, cur_col := 0, line_pos := [0] }

/-- Output trace of that `print_desc` call. -/
def descT_out : List TermOp :=
  [TermOp.printStr ['=', '=', '=', '=', '=', ' ', 'T', ' ', '=', '=', '=', '=', '='],
   TermOp.moveLeft 13]

/-! ## Terminal semantics lemmas -/

theorem Term.applyOps_append (s : Term) (a b : List TermOp) :
    s.applyOps (a ++ b) = (s.applyOps a).applyOps b :=
  List.foldl_append ..

theorem Term.applyOps_single (s : Term) (op : TermOp) : s.applyOps [op] = s.applyOp op := rfl

theorem applyOps_move_vertical (s : Term) (d : Int) :
    s.applyOps (CursorTool.move_vertical d) = { s with row := s.row + d } := by
  unfold CursorTool.move_vertical CursorTool.move_down CursorTool.move_up
  split_ifs with h1 h2 <;>
    first
      | (rw [Term.applyOps_single]; ext r k <;> simp [Term.applyOp] <;> omega)
      | (ext r k <;> simp [Term.applyOps] <;> omega)

theorem applyOps_move_horizontal (s : Term) (d : Int) :
    s.applyOps (CursorTool.move_horizontal d) = { s with col := s.col + d } := by
  unfold CursorTool.move_horizontal CursorTool.move_right CursorTool.move_left
  split_ifs with h1 h2 <;>
    first
      | (rw [Term.applyOps_single]; ext r k <;> simp [Term.applyOp] <;> omega)
      | (ext r k <;> simp [Term.applyOps] <;> omega)

theorem putc_printable (s : Term) (c : Char) (h1 : c ≠ '\n') (h2 : c ≠ '\r') :
    s.putc c =
      { s with
        cells := fun r k => if r = s.row ∧ k = s.col then some c else s.cells r k,
        col := s.col + 1 } := by
  unfold Term.putc
  rw [if_neg h1, if_neg h2]

theorem applyOps_print_char (s : Term) (c : Char) :
    s.applyOps [TermOp.printStr [c]] = s.putc c := rfl

theorem move_vertical_no_print (d : Int) (cs : List Char) :
    TermOp.printStr cs ∉ CursorTool.move_vertical d := by
  unfold CursorTool.move_vertical CursorTool.move_down CursorTool.move_up
  split_ifs <;> simp

theorem move_horizontal_no_print (d : Int) (cs : List Char) :
    TermOp.printStr cs ∉ CursorTool.move_horizontal d := by
  unfold CursorTool.move_horizontal CursorTool.move_right CursorTool.move_left
  split_ifs <;> simp

/-! ## Characterization of the canvas operations -/

theorem update_char_eq (t : UITool) (i : Int) (c : Char)
    (hrange : 0 ≤ i ∧ i < (t.max_lines : Int)) (hc : ¬(c = '\n' ∨ c = '\r')) :
    t.update_char i c =
      some ({ t with
                cur_line := (t.max_lines : Int), cur_col := 0,
                line_pos := t.line_pos.set i.toNat (t.line_pos.getD i.toNat 0 + 1) },
            (CursorTool.move_vertical (i - t.cur_line) ++
               CursorTool.move_horizontal (t.line_pos.getD i.toNat 0 - t.cur_col)) ++
              [TermOp.printStr [c]] ++
              (CursorTool.move_vertical ((t.max_lines : Int) - i) ++
               CursorTool.move_horizontal (0 - (t.line_pos.getD i.toNat 0 + 1)))) := by
  unfold UITool.update_char
  rw [if_pos hrange, if_neg hc]
  rfl

theorem update_char_nl_eq (t : UITool) (i : Int) (c : Char)
    (hrange : 0 ≤ i ∧ i < (t.max_lines : Int)) (hc : c = '\n' ∨ c = '\r') :
    t.update_char i c =
      some ({ t with
                cur_line := (t.max_lines : Int), cur_col := 0,
                line_pos := t.line_pos.set i.toNat 0 },
            CursorTool.move_vertical ((t.max_lines : Int) - t.cur_line) ++
              CursorTool.move_horizontal (0 - t.cur_col)) := by
  unfold UITool.update_char
  rw [if_pos hrange, if_pos hc]
  rfl

theorem update_line_eq (t : UITool) (l : Int) (content : List Char)
    (h : ¬('\r' ∈ content ∨ '\n' ∈ content)) :
    t.update_line l content =
      some ({ t with cur_line := (t.max_lines : Int), cur_col := 0 },
            (CursorTool.move_vertical (l - t.cur_line) ++
               CursorTool.move_horizontal (0 - t.cur_col)) ++
              [TermOp.printStr content] ++
              (CursorTool.move_vertical ((t.max_lines : Int) - l) ++
               CursorTool.move_horizontal (0 - (0 + (content.length : Int))))) := by
  unfold UITool.update_line
  rw [if_neg h]
  rfl

theorem update_char_none (t : UITool) (i : Int) (c : Char)
    (h : ¬(0 ≤ i ∧ i < (t.max_lines : Int))) :
    t.update_char i c = none := by
  unfold UITool.update_char
  rw [if_neg h]

theorem update_char_range (t : UITool) (i : Int) (c : Char) (r : UITool × List TermOp)
    (h : t.update_char i c = some r) : 0 ≤ i ∧ i < (t.max_lines : Int) := by
  by_contra hc
  rw [update_char_none t i c hc] at h
  exact Option.noConfusion h

theorem update_char_isSome (t : UITool) (i : Int) (c : Char)
    (h : 0 ≤ i ∧ i < (t.max_lines : Int)) : (t.update_char i c).isSome = true := by
  by_cases hc : c = '\n' ∨ c = '\r'
  · rw [update_char_nl_eq t i c h hc]; rfl
  · rw [update_char_eq t i c h hc]; rfl

theorem update_char_state (t : UITool) (i : Int) (c : Char) (t' : UITool) (o : List TermOp)
    (h : t.update_char i c = some (t', o)) :
    t'.max_lines = t.max_lines ∧ t'.cur_line = (t.max_lines : Int) ∧ t'.cur_col = 0 ∧
      t'.line_pos =
        (if c = '\n' ∨ c = '\r' then t.line_pos.set i.toNat 0
         else t.line_pos.set i.toNat (t.line_pos.getD i.toNat 0 + 1)) := by
  have hr := update_char_range t i c (t', o) h
  by_cases hc : c = '\n' ∨ c = '\r'
  · rw [update_char_nl_eq t i c hr hc] at h
    injection h with h2
    injection h2 with hS hO
    subst hS
    simp [hc]
  · rw [update_char_eq t i c hr hc] at h
    injection h with h2
    injection h2 with hS hO
    subst hS
    simp [hc]

theorem update_char_frame (t : UITool) (i : Int) (c : Char) (t' : UITool) (o : List TermOp)
    (j : Nat) (h : t.update_char i c = some (t', o)) (hj : (j : Int) ≠ i) :
    t'.line_pos.get? j = t.line_pos.get? j := by
  have hr := update_char_range t i c (t', o) h
  have hne : i.toNat ≠ j := by omega
  have hs := (update_char_state t i c t' o h).2.2.2
  rw [hs]
  split_ifs <;> exact List.get?_set_ne _ _ hne

theorem update_char_self (t : UITool) (i : Int) (c : Char) (t' : UITool) (o : List TermOp)
    (h : t.update_char i c = some (t', o)) :
    t'.line_pos.get? i.toNat =
      (t.line_pos.get? i.toNat).map
        (fun _ => if c = '\n' ∨ c = '\r' then 0 else t.line_pos.getD i.toNat 0 + 1) := by
  have hs := (update_char_state t i c t' o h).2.2.2
  rw [hs]
  split_ifs with hc <;> rw [List.get?_set_eq] <;> cases t.line_pos.get? i.toNat <;> simp

/-! ## Claim theorems -/

/-- C1: for every canvas, the tracked cursor belief equals the footer
position `(max_lines, 0)` immediately after construction and after every
`update_char` and `update_line` call that returns normally. -/
theorem c1_cursor_idle_invariant :
    (∀ n : Nat, (UITool.init n).1.cur_line = (n : Int) ∧ (UITool.init n).1.cur_col = 0) ∧
    (∀ (t : UITool) (i : Int) (c : Char) (t' : UITool) (o : List TermOp),
        t.update_char i c = some (t', o) →
        t'.cur_line = (t.max_lines : Int) ∧ t'.cur_col = 0) ∧
    (∀ (t : UITool) (l : Int) (cs : List Char) (t' : UITool) (o : List TermOp),
        t.update_line l cs = some (t', o) →
        t'.cur_line = (t.max_lines : Int) ∧ t'.cur_col = 0) := by
  refine ⟨fun n => ⟨rfl, rfl⟩, ?_, ?_⟩
  · intro t i c t' o h
    have hs := update_char_state t i c t' o h
    exact ⟨hs.2.1, hs.2.2.1⟩
  · intro t l cs t' o h
    by_cases hcs : '\r' ∈ cs ∨ '\n' ∈ cs
    · unfold UITool.update_line at h
      rw [if_pos hcs] at h
      exact Option.noConfusion h
    · rw [update_line_eq t l cs hcs] at h
      injection h with h2
      injection h2 with hS hO
      subst hS
      exact ⟨rfl, rfl⟩

/-- Witness for C1: a one-character update on a two-line canvas ends with
the belief at the footer `(2, 0)`. -/
theorem c1_witness :
    (UITool.init 2).1.update_char 0 'a' =
      some ({ max_lines := 2, cur_line := 2, cur_col := 0, line_pos := [1, 0] },
            [TermOp.moveUp 2, TermOp.printStr ['a'], TermOp.moveDown 2, TermOp.moveLeft 1]) ∧
    ({ max_lines := 2, cur_line := 2, cur_col := 0, line_pos := [1, 0] } : UITool).cur_line =
      ((UITool.init 2).1.max_lines : Int) ∧
    ({ max_lines := 2, cur_line := 2, cur_col := 0, line_pos := [1, 0] } : UITool).cur_col = 0 :=
  ⟨by decide,
   c1_cursor_idle_invariant.2.1 (UITool.init 2).1 0 'a'
     { max_lines := 2, cur_line := 2, cur_col := 0, line_pos := [1, 0] }
     [TermOp.moveUp 2, TermOp.printStr ['a'], TermOp.moveDown 2, TermOp.moveLeft 1]
     (by decide)⟩

/-- C2: the multiplexing loop over three processes that make the bytes
"ab", "xy", "12" available and then report exited terminates (`done`
within ten iterations), leaves `line_pos = [2, 2, 2]`, drains every
process, and renders exactly "ab", "xy", "12" on lines 0, 1, 2. -/
theorem c2_three_stream_scenario :
    c2_res.isDone = true ∧
    c2_res.endProcs = some [[], [], []] ∧
    c2_res.endUI.map UITool.line_pos = some [2, 2, 2] ∧
    c2_term.cells 0 0 = some 'a' ∧ c2_term.cells 0 1 = some 'b' ∧ c2_term.cells 0 2 = none ∧
    c2_term.cells 1 0 = some 'x' ∧ c2_term.cells 1 1 = some 'y' ∧ c2_term.cells 1 2 = none ∧
    c2_term.cells 2 0 = some '1' ∧ c2_term.cells 2 1 = some '2' ∧ c2_term.cells 2 2 = none := by
  decide

/-- C3: on every exit path of the session scope — normal completion or a
raising body — the trace ends with the cursor-show sequence and a
trailing newline, emitted after the body's own output. -/
theorem c3_teardown_on_all_paths (n : Nat) (desc : List Char) (body : UITool → BodyOut) :
    (∃ pre, (ui_tool_run n desc body).1 =
        pre ++ [TermOp.showCursor, TermOp.printStr ['\n']]) ∧
    (∀ (t1 : UITool) (o1 : List TermOp),
        (UITool.init n).1.print_desc desc = some (t1, o1) →
        (ui_tool_run n desc body).1 =
          [TermOp.hideCursor] ++ (UITool.init n).2 ++ o1 ++ (body t1).out ++
            errOut (body t1).err ++ [TermOp.showCursor, TermOp.printStr ['\n']]) := by
  constructor
  · unfold ui_tool_run
    cases hdesc : (UITool.init n).1.print_desc desc with
    | none =>
      exact ⟨[TermOp.hideCursor] ++ (UITool.init n).2 ++ [TermOp.printStr ['\n']], by simp⟩
    | some p =>
      exact ⟨[TermOp.hideCursor] ++ (UITool.init n).2 ++ p.2 ++ (body p.1).out ++
        errOut (body p.1).err, by simp⟩
  · intro t1 o1 h
    unfold ui_tool_run
    rw [h]

/-- Witness for C3 at a concrete input: a one-line session with banner
"T" and a normally completing body. -/
theorem c3_witness :
    (ui_tool_run 1 ['T'] okBody).1 =
      [TermOp.hideCursor] ++ (UITool.init 1).2 ++ descT_out ++ (okBody descT_tool).out ++
        errOut (okBody descT_tool).err ++ [TermOp.showCursor, TermOp.printStr ['\n']] :=
  (c3_teardown_on_all_paths 1 ['T'] okBody).2 descT_tool descT_out (by decide)

/-- C4 counterexample: a body that raises ("boom") does not propagate the
error to the caller of the scope — the scope returns normally
(`except Exception as e: print(e)` swallows it), refuting the claim that
the same error is propagated after teardown. -/
theorem c4_counterexample :
    (boomBody descT_tool).err = some ['b', 'o', 'o', 'm'] ∧
    (ui_tool_run 1 ['T'] boomBody).2 = none :=
  ⟨rfl, rfl⟩

/-- C4 amended: when the session body raises, the scope prints the
error's message, then unconditionally runs teardown (cursor show and
trailing newline) — but the error is swallowed, not propagated: the
scope returns normally to its caller. -/
theorem c4_amended_teardown_then_swallow (n : Nat) (desc : List Char)
    (body : UITool → BodyOut) (t1 : UITool) (o1 : List TermOp) (m : List Char)
    (hdesc : (UITool.init n).1.print_desc desc = some (t1, o1))
    (herr : (body t1).err = some m) :
    (ui_tool_run n desc body).1 =
      [TermOp.hideCursor] ++ (UITool.init n).2 ++ o1 ++ (body t1).out ++
        [TermOp.printStr (m ++ ['\n'])] ++ [TermOp.showCursor, TermOp.printStr ['\n']] ∧
    (ui_tool_run n desc body).2 = none := by
  unfold ui_tool_run
  rw [hdesc]
  exact ⟨by simp [errOut, herr], rfl⟩

/-- Witness for C4's amended claim at a concrete input. -/
theorem c4_witness :
    (ui_tool_run 1 ['T'] boomBody).1 =
      [TermOp.hideCursor] ++ (UITool.init 1).2 ++ descT_out ++ (boomBody descT_tool).out ++
        [TermOp.printStr (['b', 'o', 'o', 'm'] ++ ['\n'])] ++
        [TermOp.showCursor, TermOp.printStr ['\n']] ∧
    (ui_tool_run 1 ['T'] boomBody).2 = none :=
  c4_amended_teardown_then_swallow 1 ['T'] boomBody descT_tool descT_out ['b', 'o', 'o', 'm']
    (by decide) rfl

/-- C7 counterexample: `update_line` with an out-of-range line index
succeeds (the code checks only the content), and `print_line` applied to
a newline performs no check at all and writes it to the terminal —
refuting the claim that such calls fail before writing. -/
theorem c7_counterexample :
    ((UITool.init 1).1.update_line 5 ['x']).isSome = true ∧
    (UITool.init 1).1.print_line ['\n'] =
      ({ max_lines := 1, cur_line := 1, cur_col := 1, line_pos := [0] },
       [TermOp.printStr ['\n']]) := by
  decide

/-- C7 amended: `update_char` with a line index outside
`[0, max_lines)` fails before writing or mutating anything, and
`update_line` whose content contains a newline or carriage return fails
before writing or mutating anything; but `update_line` does not check
its line index, and `print_line` checks nothing. -/
theorem c7_amended_preconditions :
    (∀ (t : UITool) (line : Int) (c : Char),
        ¬(0 ≤ line ∧ line < (t.max_lines : Int)) → t.update_char line c = none) ∧
    (∀ (t : UITool) (line : Int) (content : List Char),
        ('\r' ∈ content ∨ '\n' ∈ content) → t.update_line line content = none) := by
  constructor
  · exact fun t line c h => update_char_none t line c h
  · intro t line content h
    unfold UITool.update_line
    rw [if_pos h]

/-- Witness for C7's amended claim at concrete inputs. -/
theorem c7_witness :
    (UITool.init 1).1.update_char 5 'a' = none ∧
    (UITool.init 1).1.update_line 0 ['\n'] = none :=
  ⟨c7_amended_preconditions.1 (UITool.init 1).1 5 'a' (by decide),
   c7_amended_preconditions.2 (UITool.init 1).1 0 ['\n'] (by decide)⟩

/-- C8: when every process handle's poll reports exited at the start of
an iteration, the loop returns at once: the process states are returned
untouched (no byte is consumed from any buffer) and no terminal output
is produced (nothing further is rendered). -/
theorem c8_no_final_drain {σ : Type} (pm : ProcModel σ) (fuel : Nat) (ps : List σ)
    (ui : UITool) (h : ps.all pm.poll = true) :
    mux_loop pm (fuel + 1) ps ui = .done ps ui [] := by
  unfold mux_loop
  rw [if_pos h]

/-- Witness for C8: a process that reports exited while the byte 'z' is
still buffered keeps that byte unread and unrendered. -/
theorem c8_witness :
    mux_loop exitedPM 1 [['z']] (UITool.init 1).1 = .done [['z']] (UITool.init 1).1 [] :=
  c8_no_final_drain exitedPM 0 [['z']] (UITool.init 1).1 (by decide)

/-- C10: `UITool(0)` is accepted: empty column table, belief resting at
`(0, 0)`, no repositioning output at all (`move_vertical 0` and
`move_horizontal 0` emit nothing), and every subsequent `update_char`
fails its line-index precondition. -/
theorem c10_zero_line_canvas :
    (UITool.init 0).1 = { max_lines := 0, cur_line := 0, cur_col := 0, line_pos := [] } ∧
    (UITool.init 0).2 = [] ∧
    CursorTool.move_vertical 0 = [] ∧
    CursorTool.move_horizontal 0 = [] ∧
    ∀ (line : Int) (c : Char), (UITool.init 0).1.update_char line c = none := by
  refine ⟨by decide, by decide, rfl, rfl, ?_⟩
  intro line c
  apply update_char_none
  intro hc
  have h2 : line < ((0 : Nat) : Int) := hc.2
  omega

/-! ## Line independence (C9) -/

theorem run_calls_cons (t : UITool) (pc : Int × Char) (rest : List (Int × Char)) :
    t.run_calls (pc :: rest) =
      match t.update_char pc.1 pc.2 with
      | none => none
      | some p =>
        match p.1.run_calls rest with
        | none => none
        | some q => some (q.1, p.2 ++ q.2) := rfl

theorem run_calls_proj (j : Nat) (calls : List (Int × Char)) :
    ∀ (t1 t2 : UITool), t1.max_lines = t2.max_lines →
      t1.line_pos.get? j = t2.line_pos.get? j →
      ∀ (r1 : UITool) (o1 : List TermOp), t1.run_calls calls = some (r1, o1) →
      ∃ r2 o2, t2.run_calls (calls.filter fun pc => pc.1 = (j : Int)) = some (r2, o2) ∧
        r1.line_pos.get? j = r2.line_pos.get? j := by
  induction calls with
  | nil =>
    intro t1 t2 hm hl r1 o1 h
    injection h with h2
    injection h2 with hS hO
    subst hS
    exact ⟨t2, [], rfl, hl⟩
  | cons pc rest ih =>
    intro t1 t2 hm hl r1 o1 h
    rw [run_calls_cons] at h
    cases hstep : t1.update_char pc.1 pc.2 with
    | none => rw [hstep] at h; exact Option.noConfusion h
    | some p =>
      rw [hstep] at h
      dsimp only at h
      cases hrest : p.1.run_calls rest with
      | none => rw [hrest] at h; exact Option.noConfusion h
      | some q =>
        rw [hrest] at h
        injection h with h2
        injection h2 with hS hO
        have hrange := update_char_range t1 pc.1 pc.2 p hstep
        by_cases hj : pc.1 = (j : Int)
        · have hrange2 : 0 ≤ pc.1 ∧ pc.1 < (t2.max_lines : Int) := by
            rw [← hm]; exact hrange
          obtain ⟨p2, hstep2⟩ :=
            Option.isSome_iff_exists.mp (update_char_isSome t2 pc.1 pc.2 hrange2)
          have hm' : p.1.max_lines = p2.1.max_lines := by
            rw [(update_char_state t1 pc.1 pc.2 p.1 p.2 hstep).1,
                (update_char_state t2 pc.1 pc.2 p2.1 p2.2 hstep2).1, hm]
          have htn : pc.1.toNat = j := by omega
          have hgd : t1.line_pos.getD pc.1.toNat 0 = t2.line_pos.getD pc.1.toNat 0 := by
            rw [List.getD_eq_get?, List.getD_eq_get?, htn, hl]
          have hl' : p.1.line_pos.get? j = p2.1.line_pos.get? j := by
            rw [← htn, update_char_self t1 pc.1 pc.2 p.1 p.2 hstep,
                update_char_self t2 pc.1 pc.2 p2.1 p2.2 hstep2, hgd, htn, hl]
          obtain ⟨r2, o2, hfilt, hagree⟩ := ih p.1 p2.1 hm' hl' q.1 q.2 hrest
          refine ⟨r2, p2.2 ++ o2, ?_, ?_⟩
          · rw [List.filter_cons_of_pos (by simpa using hj), run_calls_cons, hstep2]
            dsimp only
            rw [hfilt]
          · rw [← hS]; exact hagree
        · have hl'' : p.1.line_pos.get? j = t2.line_pos.get? j := by
            rw [update_char_frame t1 pc.1 pc.2 p.1 p.2 j hstep (fun hh => hj hh.symm), hl]
          have hm'' : p.1.max_lines = t2.max_lines := by
            rw [(update_char_state t1 pc.1 pc.2 p.1 p.2 hstep).1, hm]
          obtain ⟨r2, o2, hfilt, hagree⟩ := ih p.1 t2 hm'' hl'' q.1 q.2 hrest
          refine ⟨r2, o2, ?_, ?_⟩
          · rw [List.filter_cons_of_neg (by simpa using hj)]; exact hfilt
          · rw [← hS]; exact hagree

/-- C9: `update_char` on line `i` leaves every other line's `line_pos`
entry unchanged; consequently a mixed sequence of `update_char` calls
gives each line the same `line_pos` value as running only that line's
calls. -/
theorem c9_line_state_independence :
    (∀ (t : UITool) (i : Int) (c : Char) (t' : UITool) (o : List TermOp) (j : Nat),
        t.update_char i c = some (t', o) → (j : Int) ≠ i →
        t'.line_pos.get? j = t.line_pos.get? j) ∧
    (∀ (t : UITool) (calls : List (Int × Char)) (t' : UITool) (o : List TermOp) (j : Nat),
        t.run_calls calls = some (t', o) →
        (t.run_calls (calls.filter fun pc => pc.1 = (j : Int))).isSome = true ∧
        ∀ (t'' : UITool) (o'' : List TermOp),
          t.run_calls (calls.filter fun pc => pc.1 = (j : Int)) = some (t'', o'') →
          t'.line_pos.get? j = t''.line_pos.get? j) := by
  constructor
  · exact fun t i c t' o j h hj => update_char_frame t i c t' o j h hj
  · intro t calls t' o j h
    obtain ⟨r2, o2, hfilt, hagree⟩ := run_calls_proj j calls t t rfl rfl t' o h
    constructor
    · rw [hfilt]; rfl
    · intro t'' o'' hf
      rw [hfilt] at hf
      injection hf with h2
      injection h2 with hS hO
      rw [hagree, hS]

/-- Witness for C9: interleaved updates on lines 0 and 1 of a two-line
canvas give line 0 the same `line_pos` entry as running only the line-0
call. -/
theorem c9_witness :
    ({ max_lines := 2, cur_line := 2, cur_col := 0, line_pos := [1, 1] } : UITool).line_pos.get? 0 =
      ({ max_lines := 2, cur_line := 2, cur_col := 0, line_pos := [1, 0] } : UITool).line_pos.get? 0 :=
  (c9_line_state_independence.2 (UITool.init 2).1 [(0, 'a'), (1, 'b')]
      { max_lines := 2, cur_line := 2, cur_col := 0, line_pos := [1, 1] }
      [TermOp.moveUp 2, TermOp.printStr ['a'], TermOp.moveDown 2, TermOp.moveLeft 1,
       TermOp.moveUp 1, TermOp.printStr ['b'], TermOp.moveDown 1, TermOp.moveLeft 1] 0
      (by decide)).2
    { max_lines := 2, cur_line := 2, cur_col := 0, line_pos := [1, 0] }
    [TermOp.moveUp 2, TermOp.printStr ['a'], TermOp.moveDown 2, TermOp.moveLeft 1]
    (by decide)

/-! ## Single-line content accumulation (C6) -/

theorem applyOps_mv_mh (s : Term) (dv dh : Int) :
    s.applyOps (CursorTool.move_vertical dv ++ CursorTool.move_horizontal dh) =
      { s with row := s.row + dv, col := s.col + dh } := by
  rw [Term.applyOps_append, applyOps_move_vertical, applyOps_move_horizontal]

theorem set_replicate_self (n j : Nat) (a : Int) :
    (List.replicate n a).set j a = List.replicate n a := by
  induction n generalizing j with
  | zero => rfl
  | succ m ih =>
    cases j with
    | zero => rw [List.replicate_succ, List.set_cons_zero]
    | succ k => rw [List.replicate_succ, List.set_cons_succ, ih, ← List.replicate_succ]

theorem get?_append_singleton (ws : List Char) (c : Char) (m : Nat) :
    (ws ++ [c]).get? m =
      if m < ws.length then ws.get? m
      else if m = ws.length then some c else none := by
  by_cases h1 : m < ws.length
  · rw [if_pos h1, List.get?_append h1]
  · rw [if_neg h1, List.get?_append_right (Nat.le_of_not_lt h1)]
    by_cases h2 : m = ws.length
    · rw [if_pos h2, h2, Nat.sub_self]
      rfl
    · rw [if_neg h2]
      obtain ⟨k, hk⟩ : ∃ k, m - ws.length = k + 1 := ⟨m - ws.length - 1, by omega⟩
      rw [hk]
      rfl

theorem run_chars_cons (t : UITool) (i : Int) (c : Char) (rest : List Char) :
    t.run_chars i (c :: rest) =
      match t.update_char i c with
      | none => none
      | some p =>
        match p.1.run_chars i rest with
        | none => none
        | some q => some (q.1, p.2 ++ q.2) := rfl

/-- Invariant tying a canvas to the terminal while a single line `i`
accumulates the characters `ws`: cursor idles at the footer on both
sides, line `i` of the column table carries `ws.length`, line `i` of the
screen shows exactly `ws`, and every other line is untouched. -/
def LineInv (n : Nat) (i : Int) (ws : List Char) (t : UITool) (s : Term) : Prop :=
  t.max_lines = n ∧ t.cur_line = (n : Int) ∧ t.cur_col = 0 ∧
  s.row = (n : Int) ∧ s.col = 0 ∧
  t.line_pos = (List.replicate n (0 : Int)).set i.toNat (ws.length : Int) ∧
  (∀ k : Int, s.cells i k = if 0 ≤ k then ws.get? k.toNat else none) ∧
  (∀ r k : Int, r ≠ i → s.cells r k = none)

theorem lineInv_init (n : Nat) (i : Int) (hi0 : 0 ≤ i) (hin : i < (n : Int)) :
    LineInv n i [] (UITool.init n).1 (term0.applyOps (UITool.init n).2) := by
  have hout : (UITool.init n).2 =
      CursorTool.move_vertical ((n : Int) - 0) ++ CursorTool.move_horizontal ((0 : Int) - 0) :=
    rfl
  refine ⟨rfl, rfl, rfl, ?_, ?_, ?_, ?_, ?_⟩
  · rw [hout, applyOps_mv_mh]
    show (0 : Int) + ((n : Int) - 0) = (n : Int)
    ring
  · rw [hout, applyOps_mv_mh]
    show (0 : Int) + ((0 : Int) - 0) = 0
    ring
  · exact (set_replicate_self n i.toNat 0).symm
  · intro k
    rw [hout, applyOps_mv_mh]
    show none = if 0 ≤ k then ([] : List Char).get? k.toNat else none
    rw [List.get?_nil, ite_self]
  · intro r k hr
    rw [hout, applyOps_mv_mh]
    rfl

theorem lineInv_step (n : Nat) (i : Int) (ws : List Char) (t : UITool) (s : Term) (c : Char)
    (hinv : LineInv n i ws t s) (hi0 : 0 ≤ i) (hin : i < (n : Int))
    (hc1 : c ≠ '\n') (hc2 : c ≠ '\r') :
    ∃ t' o, t.update_char i c = some (t', o) ∧
      LineInv n i (ws ++ [c]) t' (s.applyOps o) := by
  obtain ⟨hml, hcl, hcc, hrow, hcol, hlp, hci, hco⟩ := hinv
  have hrange : 0 ≤ i ∧ i < (t.max_lines : Int) := by rw [hml]; exact ⟨hi0, hin⟩
  have hc : ¬(c = '\n' ∨ c = '\r') := by
    intro hcon
    rcases hcon with h | h
    · exact hc1 h
    · exact hc2 h
  have hlen : i.toNat < (List.replicate n (0 : Int)).length := by
    rw [List.length_replicate]; omega
  have hgd : t.line_pos.getD i.toNat 0 = (ws.length : Int) := by
    rw [hlp, List.getD_eq_get?, List.get?_set_eq_of_lt _ hlen]
    rfl
  refine ⟨_, _, update_char_eq t i c hrange hc, ?_⟩
  unfold LineInv
  rw [hgd]
  simp only [Term.applyOps_append, applyOps_move_vertical, applyOps_move_horizontal,
    applyOps_print_char]
  rw [putc_printable _ c hc1 hc2]
  have hA : s.row + (i - t.cur_line) = i := by omega
  have hB : s.col + ((ws.length : Int) - t.cur_col) = (ws.length : Int) := by omega
  refine ⟨hml, by rw [hml], by trivial, ?_, ?_, ?_, ?_, ?_⟩
  · show s.row + (i - t.cur_line) + ((t.max_lines : Int) - i) = (n : Int)
    omega
  · show s.col + ((ws.length : Int) - t.cur_col) + 1 + (0 - ((ws.length : Int) + 1)) = 0
    omega
  · show t.line_pos.set i.toNat ((ws.length : Int) + 1) =
      (List.replicate n (0 : Int)).set i.toNat ((ws ++ [c]).length : Int)
    rw [hlp, List.set_set]
    congr 1
    rw [List.length_append, List.length_singleton]
    omega
  · intro k
    dsimp only
    rw [hA, hB]
    by_cases hk : k = (ws.length : Int)
    · rw [if_pos ⟨rfl, hk⟩, if_pos (by omega : (0 : Int) ≤ k)]
      have : k.toNat = ws.length := by omega
      rw [this, get?_append_singleton, if_neg (Nat.lt_irrefl _), if_pos rfl]
    · rw [if_neg (fun hcon => hk hcon.2), hci k]
      by_cases h0 : (0 : Int) ≤ k
      · rw [if_pos h0, if_pos h0, get?_append_singleton]
        by_cases hlt : k.toNat < ws.length
        · rw [if_pos hlt]
        · rw [if_neg hlt, if_neg (by omega : ¬(k.toNat = ws.length))]
          exact List.get?_eq_none.mpr (by omega : ws.length ≤ k.toNat)
      · rw [if_neg h0, if_neg h0]
  · intro r k hr
    dsimp only
    rw [hA, hB, if_neg (fun hcon => hr hcon.1)]
    exact hco r k hr

theorem run_chars_inv (n : Nat) (i : Int) (hi0 : 0 ≤ i) (hin : i < (n : Int)) :
    ∀ (cs ws : List Char) (t : UITool) (s : Term),
      (∀ c ∈ cs, c ≠ '\n' ∧ c ≠ '\r') → LineInv n i ws t s →
      ∃ t' o, t.run_chars i cs = some (t', o) ∧ LineInv n i (ws ++ cs) t' (s.applyOps o) := by
  intro cs
  induction cs with
  | nil =>
    intro ws t s hcs hinv
    exact ⟨t, [], rfl, by simpa [Term.applyOps] using hinv⟩
  | cons c rest ih =>
    intro ws t s hcs hinv
    obtain ⟨t1, o1, hstep, hinv1⟩ :=
      lineInv_step n i ws t s c hinv hi0 hin (hcs c (by simp)).1 (hcs c (by simp)).2
    obtain ⟨t2, o2, hrun, hinv2⟩ :=
      ih (ws ++ [c]) t1 (s.applyOps o1) (fun d hd => hcs d (by simp [hd])) hinv1
    refine ⟨t2, o1 ++ o2, ?_, ?_⟩
    · rw [run_chars_cons, hstep]
      dsimp only
      rw [hrun]
    · rw [Term.applyOps_append]
      simpa using hinv2

/-- C6: routing any sequence of printable characters (no newline or
carriage return) to one in-range line `i` of a freshly constructed
canvas succeeds, leaves `line_pos[i]` equal to the number of characters,
and renders on terminal line `i` exactly the concatenation of the
characters in call order. -/
theorem c6_single_line_content (n : Nat) (i : Int) (cs : List Char)
    (hi0 : 0 ≤ i) (hin : i < (n : Int)) (hcs : ∀ c ∈ cs, c ≠ '\n' ∧ c ≠ '\r') :
    ((UITool.init n).1.run_chars i cs).isSome = true ∧
    ∀ (t' : UITool) (o : List TermOp),
      (UITool.init n).1.run_chars i cs = some (t', o) →
      t'.line_pos.get? i.toNat = some (cs.length : Int) ∧
      ∀ k : Nat, ((term0.applyOps (UITool.init n).2).applyOps o).cells i (k : Int) = cs.get? k := by
  obtain ⟨t', o, hrun, hinv⟩ :=
    run_chars_inv n i hi0 hin cs [] (UITool.init n).1 (term0.applyOps (UITool.init n).2) hcs
      (lineInv_init n i hi0 hin)
  constructor
  · rw [hrun]; rfl
  · intro t2 o2 h2
    rw [hrun] at h2
    injection h2 with h3
    injection h3 with hS hO
    subst hS
    subst hO
    obtain ⟨hml, hcl, hcc, hrow, hcol, hlp, hci, hco⟩ := hinv
    constructor
    · have hlen : i.toNat < (List.replicate n (0 : Int)).length := by
        rw [List.length_replicate]; omega
      rw [hlp, List.get?_set_eq_of_lt _ hlen]
      simp
    · intro k
      have hk := hci (k : Int)
      simpa using hk

/-- Witness for C6 at a concrete input: one 'a' routed to line 0 of a
one-line canvas. -/
theorem c6_witness :
    ((UITool.init 1).1.run_chars 0 ['a']).isSome = true ∧
    ({ max_lines := 1, cur_line := 1, cur_col := 0, line_pos := [1] } : UITool).line_pos.get?
        (0 : Int).toNat = some ((['a'] : List Char).length : Int) ∧
    ((term0.applyOps (UITool.init 1).2).applyOps
        [TermOp.moveUp 1, TermOp.printStr ['a'], TermOp.moveDown 1,
         TermOp.moveLeft 1]).cells 0 ((0 : Nat) : Int) = (['a'] : List Char).get? 0 := by
  have h := c6_single_line_content 1 0 ['a'] (by decide) (by decide) (by decide)
  have h2 := h.2 { max_lines := 1, cur_line := 1, cur_col := 0, line_pos := [1] }
    [TermOp.moveUp 1, TermOp.printStr ['a'], TermOp.moveDown 1, TermOp.moveLeft 1] (by decide)
  exact ⟨h.1, h2.1, h2.2 0⟩

/-! ## Newline handling (C5) -/

/-- C5: a newline or carriage-return byte routed to an in-range line `i`
of any canvas (with a well-formed column table, and a terminal in sync
with the tracked belief) resets `line_pos[i]` to 0 and emits no visible
character — the trace has no print operation and the terminal cells are
untouched; a subsequent printable character routed to line `i` is then
written at column 0 of terminal line `i`. -/
theorem c5_newline_resets_column (t : UITool) (s : Term) (i : Int) (nl c : Char)
    (hlen : t.line_pos.length = t.max_lines)
    (hi0 : 0 ≤ i) (hin : i < (t.max_lines : Int))
    (hnl : nl = '\n' ∨ nl = '\r') (hc1 : c ≠ '\n') (hc2 : c ≠ '\r')
    (hrow : s.row = t.cur_line) (hcol : s.col = t.cur_col) :
    (t.update_char i nl).isSome = true ∧
    ∀ (t1 : UITool) (o1 : List TermOp), t.update_char i nl = some (t1, o1) →
      t1.line_pos.get? i.toNat = some 0 ∧
      (∀ cs : List Char, TermOp.printStr cs ∉ o1) ∧
      (∀ r k : Int, (s.applyOps o1).cells r k = s.cells r k) ∧
      ∀ (t2 : UITool) (o2 : List TermOp), t1.update_char i c = some (t2, o2) →
        ((s.applyOps o1).applyOps o2).cells i 0 = some c := by
  have hrange : 0 ≤ i ∧ i < (t.max_lines : Int) := ⟨hi0, hin⟩
  have hc : ¬(c = '\n' ∨ c = '\r') := by
    intro hcon
    rcases hcon with h | h
    · exact hc1 h
    · exact hc2 h
  have hlt : i.toNat < t.line_pos.length := by rw [hlen]; omega
  constructor
  · exact update_char_isSome t i nl hrange
  · intro t1 o1 h1
    rw [update_char_nl_eq t i nl hrange hnl] at h1
    injection h1 with h2
    injection h2 with hS hO
    subst hS
    subst hO
    have hgd1 : (t.line_pos.set i.toNat 0).getD i.toNat 0 = 0 := by
      rw [List.getD_eq_get?, List.get?_set_eq_of_lt _ hlt]
      rfl
    refine ⟨List.get?_set_eq_of_lt _ hlt, ?_, ?_, ?_⟩
    · intro cs hmem
      rcases List.mem_append.mp hmem with h | h
      · exact move_vertical_no_print _ _ h
      · exact move_horizontal_no_print _ _ h
    · intro r k
      rw [applyOps_mv_mh]
    · intro t2 o2 h2
      rw [update_char_eq
            { max_lines := t.max_lines, cur_line := (t.max_lines : Int), cur_col := 0,
              line_pos := t.line_pos.set i.toNat 0 } i c hrange hc] at h2
      injection h2 with h3
      injection h3 with hS2 hO2
      subst hS2
      subst hO2
      simp only [Term.applyOps_append, applyOps_move_vertical, applyOps_move_horizontal,
        applyOps_print_char]
      rw [putc_printable _ c hc1 hc2]
      dsimp only
      rw [hgd1]
      split_ifs with hcond
      · rfl
      · exact absurd ⟨by omega, by omega⟩ hcond

/-- Witness for C5 at a concrete input: on a one-line canvas, a newline
and then an 'a' routed to line 0 leave 'a' rendered at cell (0, 0). -/
theorem c5_witness :
    ((UITool.init 1).1.update_char 0 '\n').isSome = true ∧
    (((term0.applyOps (UITool.init 1).2).applyOps []).applyOps
        [TermOp.moveUp 1, TermOp.printStr ['a'], TermOp.moveDown 1,
         TermOp.moveLeft 1]).cells 0 0 = some 'a' := by
  have h := c5_newline_resets_column (UITool.init 1).1 (term0.applyOps (UITool.init 1).2) 0
    '\n' 'a' (by decide) (by decide) (by decide) (Or.inl rfl) (by decide) (by decide)
    (by decide) (by decide)
  have h2 := h.2 { max_lines := 1, cur_line := 1, cur_col := 0, line_pos := [0] } [] (by decide)
  exact ⟨h.1, h2.2.2.2 { max_lines := 1, cur_line := 1, cur_col := 0, line_pos := [1] }
    [TermOp.moveUp 1, TermOp.printStr ['a'], TermOp.moveDown 1, TermOp.moveLeft 1] (by decide)⟩
